import Mathlib

/-!
Verification of the glucose-chart pipeline (`src/main.rs`) against its
specification.  The three core stages are embedded shallowly:

* `clean_data`     — the Cleaner: column selection, glucose normalization
                     ("Low" sentinel, negative-value nulling), timestamp
                     parsing, and dropping of incomplete rows;
* `calculate_hourly_stats` — the Hourly Aggregator: grouping by hour-of-day,
                     mean and four nearest-rank quantiles, sorted by hour;
* `plot_hourly_stats` — the Band Builder: band floor/width series and the
                     y-axis ceiling `(M + 50) - (M % 25)`.

Machine `f64` arithmetic on the small in-range values involved is modelled
exactly over `ℚ`; the Rust `%` operator on `f64` (truncated remainder) is
`rustRem`.  A Rust panic (the `unwrap` in `plot_hourly_stats`) is modelled
as `Option.none`; the recoverable `PolarsResult` error of the Cleaner
(missing column) is modelled with `Except`.
-/

namespace GlucosePipeline

/-- The designated timestamp column header (exact match). -/
def timestamp_col : String := "Timestamp (YYYY-MM-DDThh:mm:ss)"

/-- The designated glucose column header (exact match). -/
def glucose_col : String := "Glucose Value (mg/dL)"

/-- A parsed calendar date-time, as produced by `strptime` with format
`%Y-%m-%dT%H:%M:%S` (chrono naive datetime; the millisecond part is always
zero for this format, so it is not carried). -/
structure DateTime where
  year : Nat
  month : Nat
  day : Nat
  hour : Nat
  minute : Nat
  second : Nat
deriving DecidableEq, Repr

/-- One cleaned reading: both fields are present by construction (the type
has no nullable field), mirroring the invariant that the Cleaner's output
only holds fully valid rows. -/
structure CleanReading where
  timestamp : DateTime
  glucose_mgdl : Int
deriving DecidableEq, Repr

/-- Row-oriented tabular data with a header, as the CSV reader produces:
a header of column names and rows of raw string cells, cell `i` of a row
belonging to header column `i`. -/
structure RawFrame where
  header : List String
  rows : List (List String)
deriving Repr

/-- Numeric value of a decimal digit character, `none` otherwise. -/
def digitVal? (c : Char) : Option Nat :=
  if c.isDigit then some (c.toNat - 48) else none

/-- All-digit string to number; `none` when empty or any non-digit. -/
def digitsToNat? (cs : List Char) : Option Nat :=
  if cs.isEmpty then none
  else
    cs.foldl
      (fun acc c =>
        match acc, digitVal? c with
        | some a, some d => some (a * 10 + d)
        | _, _ => none)
      (some 0)

/-- Polars' non-strict cast of a string cell to `Int32`: an optional sign
followed by decimal digits, in `Int32` range; anything else becomes null. -/
def parseI32 (s : String) : Option Int :=
  let signAndDigits : Int × List Char :=
    match s.data with
    | '-' :: rest => (-1, rest)
    | '+' :: rest => (1, rest)
    | cs => (1, cs)
  match digitsToNat? signAndDigits.2 with
  | some n =>
      let v : Int := signAndDigits.1 * n
      if -2147483648 ≤ v ∧ v ≤ 2147483647 then some v else none
  | none => none

/-- Gregorian leap year, as chrono validates dates. -/
def isLeapYear (y : Nat) : Bool :=
  y % 4 == 0 && (y % 100 != 0 || y % 400 == 0)

/-- Days in a month of a given year. -/
def daysInMonth (y m : Nat) : Nat :=
  if m == 2 then (if isLeapYear y then 29 else 28)
  else if m == 4 || m == 6 || m == 9 || m == 11 then 30
  else 31

/-- Two decimal digit characters to a number. -/
def twoDigit? (a b : Char) : Option Nat :=
  match digitVal? a, digitVal? b with
  | some x, some y => some (x * 10 + y)
  | _, _ => none

/-- Chrono `parse_from_str` with format `%Y-%m-%dT%H:%M:%S`: the fixed
shape `YYYY-MM-DDThh:mm:ss` with calendar validation; any failure yields
`none` (polars `strict: false` turns per-value failures into null). -/
def parseDateTime (s : String) : Option DateTime :=
  match s.data with
  | [y1, y2, y3, y4, c1, m1, m2, c2, d1, d2, c3, h1, h2, c4, n1, n2, c5, e1, e2] =>
    if c1 = '-' ∧ c2 = '-' ∧ c3 = 'T' ∧ c4 = ':' ∧ c5 = ':' then
      match twoDigit? y1 y2, twoDigit? y3 y4, twoDigit? m1 m2, twoDigit? d1 d2,
            twoDigit? h1 h2, twoDigit? n1 n2, twoDigit? e1 e2 with
      | some yhi, some ylo, some mo, some d, some h, some mi, some se =>
        let y := yhi * 100 + ylo
        if 1 ≤ mo ∧ mo ≤ 12 ∧ 1 ≤ d ∧ d ≤ daysInMonth y mo ∧
            h ≤ 23 ∧ mi ≤ 59 ∧ se ≤ 59 then
          some ⟨y, mo, d, h, mi, se⟩
        else none
      | _, _, _, _, _, _, _ => none
    else none
  | _ => none

/-- First `with_column` of `clean_data`: `when(col == "Low").then(30)
.otherwise(col.cast(Int32))` — the literal `"Low"` (case-sensitive) becomes
`30`, any other cell is cast non-strictly (failure is null). -/
def glucoseStep1 (s : String) : Option Int :=
  if s = "Low" then some 30 else parseI32 s

/-- Second `with_column` of `clean_data`: `when(col < 0).then(NULL)
.otherwise(col)` — a strictly negative value becomes null; null stays
null. -/
def glucoseClean (s : String) : Option Int :=
  match glucoseStep1 s with
  | some v => if v < 0 then none else some v
  | none => none

/-- One row after the three `with_column` passes and `drop_nulls`: the row
survives exactly when both the timestamp parse and the glucose
normalization produced non-null values. -/
def cleanRow (ts gl : String) : Option CleanReading :=
  match parseDateTime ts, glucoseClean gl with
  | some t, some g => some ⟨t, g⟩
  | _, _ => none

/-- The Cleaner's only failure mode: a designated column absent from the
input schema (polars `select` error). -/
inductive SchemaError where
  | missingColumn
deriving DecidableEq, Repr

/-- `clean_data`: select the two designated columns (failing with a schema
error when either is absent), normalize glucose, parse timestamps, and
drop every row in which either field is null, keeping original order. -/
def clean_data (f : RawFrame) : Except SchemaError (List CleanReading) :=
  if timestamp_col ∈ f.header ∧ glucose_col ∈ f.header then
    Except.ok
      (f.rows.filterMap fun row =>
        cleanRow (row.getD (f.header.indexOf timestamp_col) "")
          (row.getD (f.header.indexOf glucose_col) ""))
  else Except.error SchemaError.missingColumn

/-- One per-hour row of the Hourly Aggregator's output. -/
structure HourlyStat where
  hour : Nat
  mean : ℚ
  p5 : ℚ
  p25 : ℚ
  p75 : ℚ
  p95 : ℚ
deriving DecidableEq, Repr

/-- Arithmetic mean of a group of glucose values (polars `mean`, exact over
`ℚ`). -/
def meanQ (g : List Int) : ℚ :=
  ((g.map fun v => (v : ℚ)).sum) / (g.length : ℚ)

/-- Polars `quantile(q, QuantileInterpolOptions::Nearest)`: sort the group
ascending and select the sample whose rank is nearest to `q·(n−1)` —
rounding the fractional rank to the nearest index, never interpolating. -/
def quantileNearest (g : List Int) (q : ℚ) : ℚ :=
  let s := List.insertionSort (· ≤ ·) g
  ((s.getD (round (q * ((g.length : ℚ) - 1))).toNat 0 : Int) : ℚ)

/-- The glucose values of all readings whose timestamp has hour `h`. -/
def hourGroup (rs : List CleanReading) (h : Nat) : List Int :=
  (rs.filter fun r => r.timestamp.hour == h).map fun r => r.glucose_mgdl

/-- The distinct hour values present in the readings, ascending — the
group keys of `group_by([Hour])` after the ascending sort. -/
def hoursPresent (rs : List CleanReading) : List Nat :=
  List.insertionSort (· ≤ ·) ((rs.map fun r => r.timestamp.hour).dedup)

/-- The statistics row for hour `h` over its group `g`. -/
def mkHourlyStat (h : Nat) (g : List Int) : HourlyStat :=
  { hour := h
    mean := meanQ g
    p5 := quantileNearest g (5 / 100)
    p25 := quantileNearest g (25 / 100)
    p75 := quantileNearest g (75 / 100)
    p95 := quantileNearest g (95 / 100) }

/-- `calculate_hourly_stats`: derive `hour` from each timestamp, group all
readings sharing the same hour value (pooling across calendar dates),
compute mean and the four nearest-rank quantiles per group, and sort rows
by hour ascending.  Polars raises no error here: grouping an empty frame
yields an empty frame. -/
def calculate_hourly_stats (rs : List CleanReading) : List HourlyStat :=
  (hoursPresent rs).map fun h => mkHourlyStat h (hourGroup rs h)

/-- The chart-ready data assembled by `plot_hourly_stats` before it is
handed to the renderer: per-hour axis labels, the mean and percentile
series, the two stacked band-width series, and the y-axis ceiling. -/
structure BandSeries where
  hours : List String
  mean_values : List ℚ
  percentile_5 : List ℚ
  percentile_25 : List ℚ
  percentile_75 : List ℚ
  percentile_95 : List ℚ
  area_25_75 : List ℚ
  area_5_95 : List ℚ
  y_axis_max : ℚ
deriving DecidableEq, Repr

/-- Truncation of a rational toward zero, as Rust float-to-integer
truncation behaves. -/
def ratTrunc (q : ℚ) : Int :=
  if 0 ≤ q then ⌊q⌋ else ⌈q⌉

/-- Rust's `%` on floating-point values: the truncated remainder
`x - y * trunc(x / y)` (sign of the dividend), modelled exactly. -/
def rustRem (x y : ℚ) : ℚ :=
  x - y * (ratTrunc (x / y) : ℚ)

/-- Rust `iter().reduce(f64::max)`: left fold of `max` over the sequence,
`none` when it is empty. -/
def reduceMax : List ℚ → Option ℚ
  | [] => none
  | x :: xs => some (xs.foldl max x)

/-- `plot_hourly_stats`: extract the per-hour columns, build the band
floor/width series, and compute the y-axis ceiling
`(max_value + 50) - (max_value % 25)` from the maximum 95th percentile.
The `unwrap` on `reduce(f64::max)` panics when the stats are empty; the
panic is modelled as `none`. -/
def plot_hourly_stats (stats : List HourlyStat) : Option BandSeries :=
  let percentile_5 := stats.map fun s => s.p5
  let percentile_25 := stats.map fun s => s.p25
  let percentile_75 := stats.map fun s => s.p75
  let percentile_95 := stats.map fun s => s.p95
  match reduceMax percentile_95 with
  | none => none
  | some max_value =>
      some
        { hours := stats.map fun s => Nat.repr s.hour
          mean_values := stats.map fun s => s.mean
          percentile_5 := percentile_5
          percentile_25 := percentile_25
          percentile_75 := percentile_75
          percentile_95 := percentile_95
          area_25_75 := List.zipWith (fun l h => h - l) percentile_25 percentile_75
          area_5_95 := List.zipWith (fun l h => h - l) percentile_5 percentile_95
          y_axis_max := (max_value + 50) - rustRem max_value 25 }

/-! ### Helper lemmas -/

lemma self_le_foldl_max (xs : List ℚ) (x : ℚ) : x ≤ xs.foldl max x := by
  induction xs generalizing x with
  | nil => simp
  | cons a l ih => exact le_trans (le_max_left x a) (ih (max x a))

lemma foldl_max_mem (xs : List ℚ) (x : ℚ) : xs.foldl max x ∈ x :: xs := by
  induction xs generalizing x with
  | nil => simp
  | cons a l ih =>
    rcases List.mem_cons.mp (ih (max x a)) with h | h
    · rcases max_choice x a with hx | hx <;> rw [hx] at h <;>
        simp [List.foldl_cons, hx, h]
    · simp [List.foldl_cons, h]

lemma le_foldl_max (xs : List ℚ) (x y : ℚ) (hy : y ∈ x :: xs) : y ≤ xs.foldl max x := by
  induction xs generalizing x with
  | nil => simp at hy; simp [hy]
  | cons a l ih =>
    rcases List.mem_cons.mp hy with h | h
    · subst h
      exact le_trans (le_max_left y a) (self_le_foldl_max l (max y a))
    · rcases List.mem_cons.mp h with h | h
      · subst h
        exact le_trans (le_max_right x y) (self_le_foldl_max l (max x y))
      · exact ih (max x a) (List.mem_cons_of_mem _ h)

/-- A value returned by `reduceMax` is the maximum of the list: a member
that bounds every member. -/
lemma reduceMax_spec {l : List ℚ} {M : ℚ} (h : reduceMax l = some M) :
    M ∈ l ∧ ∀ y ∈ l, y ≤ M := by
  cases l with
  | nil => simp [reduceMax] at h
  | cons x xs =>
    simp only [reduceMax, Option.some.injEq] at h
    subst h
    exact ⟨foldl_max_mem xs x, fun y hy => le_foldl_max xs x y hy⟩

/-- The nearest-rank quantile of a non-empty group, for `0 ≤ q ≤ 1`, is a
member of the group: the selected rank is within bounds and selection
indexes into a permutation of the group. -/
lemma quantileNearest_mem {g : List Int} (hne : g ≠ []) {q : ℚ}
    (h1 : q ≤ 1) : ∃ v ∈ g, quantileNearest g q = (v : ℚ) := by
  have hperm := List.perm_insertionSort (· ≤ ·) g
  have hlen : (List.insertionSort (· ≤ ·) g).length = g.length := hperm.length_eq
  have hpos : 0 < g.length := List.length_pos.mpr hne
  have hn1 : (0 : ℚ) ≤ (g.length : ℚ) - 1 := by
    have : (1 : ℚ) ≤ (g.length : ℚ) := by exact_mod_cast hpos
    linarith
  have hxle : q * ((g.length : ℚ) - 1) ≤ (g.length : ℚ) - 1 :=
    mul_le_of_le_one_left hn1 h1
  have hround : (round (q * ((g.length : ℚ) - 1)) : ℚ) < (g.length : ℚ) := by
    have := round_le_add_half (q * ((g.length : ℚ) - 1))
    linarith
  have hzlt : round (q * ((g.length : ℚ) - 1)) < (g.length : ℤ) := by
    exact_mod_cast hround
  have hidx : (round (q * ((g.length : ℚ) - 1))).toNat <
      (List.insertionSort (· ≤ ·) g).length := by
    rw [hlen]; omega
  refine ⟨(List.insertionSort (· ≤ ·) g).get
    ⟨(round (q * ((g.length : ℚ) - 1))).toNat, hidx⟩, ?_, ?_⟩
  · exact hperm.mem_iff.mp (List.get_mem _ _ _)
  · simp only [quantileNearest]
    rw [List.getD_eq_getElem _ _ hidx]
    simp

/-- Every row of the Hourly Aggregator's output is the statistics row of
its own (non-empty) hour group. -/
lemma mem_calculate_hourly_stats {rs : List CleanReading} {s : HourlyStat}
    (hs : s ∈ calculate_hourly_stats rs) :
    s = mkHourlyStat s.hour (hourGroup rs s.hour) ∧ hourGroup rs s.hour ≠ [] := by
  obtain ⟨h, hh, rfl⟩ := List.mem_map.mp hs
  refine ⟨rfl, ?_⟩
  have hmem : h ∈ (rs.map fun r => r.timestamp.hour).dedup :=
    (List.perm_insertionSort _ _).mem_iff.mp hh
  obtain ⟨r, hr, hre⟩ := List.mem_map.mp (List.mem_dedup.mp hmem)
  have : r.glucose_mgdl ∈ hourGroup rs h := by
    refine List.mem_map.mpr ⟨r, List.mem_filter.mpr ⟨hr, ?_⟩, rfl⟩
    simp [hre]
  exact List.ne_nil_of_mem this

/-! ### The claims -/

/-- C3: a row whose glucose text is the literal `"Low"` (case-sensitive)
is assigned the glucose value exactly `30` (not null) by the Cleaner,
regardless of any other field: its normalized glucose is `some 30`, and
whenever its timestamp parses the row survives with glucose `30`. -/
theorem low_sentinel_becomes_30 (ts gl : String) (h : gl = "Low") :
    glucoseClean gl = some 30 ∧
    ∀ t, parseDateTime ts = some t → cleanRow ts gl = some ⟨t, 30⟩ := by
  subst h
  have h30 : glucoseClean "Low" = some 30 := rfl
  exact ⟨h30, fun t ht => by simp [cleanRow, ht, h30]⟩

/-- C3 witness at a concrete row. -/
theorem low_sentinel_becomes_30_witness :
    glucoseClean "Low" = some 30 ∧
    ∀ t, parseDateTime "2024-03-05T08:15:00" = some t →
      cleanRow "2024-03-05T08:15:00" "Low" = some ⟨t, 30⟩ :=
  low_sentinel_becomes_30 "2024-03-05T08:15:00" "Low" rfl

/-- C4: a row whose glucose text parses to a strictly negative integer is
dropped by the Cleaner (it contributes nothing to the output), while a
parse result of exactly `0` is not treated as a sentinel: its normalized
glucose is `some 0` and the row survives whenever its timestamp parses. -/
theorem negative_glucose_dropped_zero_kept (ts gl : String) (g : Int)
    (hp : parseI32 gl = some g) :
    (g < 0 → cleanRow ts gl = none) ∧
    (g = 0 → glucoseClean gl = some 0 ∧
      ∀ t, parseDateTime ts = some t → cleanRow ts gl = some ⟨t, 0⟩) := by
  have hne : gl ≠ "Low" := by
    intro h
    rw [h] at hp
    have hLow : parseI32 "Low" = none := rfl
    rw [hLow] at hp
    cases hp
  have hstep : glucoseStep1 gl = some g := by simp [glucoseStep1, hne, hp]
  constructor
  · intro hneg
    have hcl : glucoseClean gl = none := by simp [glucoseClean, hstep, hneg]
    cases hts : parseDateTime ts <;> simp [cleanRow, hts, hcl]
  · intro h0
    subst h0
    have hcl : glucoseClean gl = some 0 := by simp [glucoseClean, hstep]
    exact ⟨hcl, fun t ht => by simp [cleanRow, ht, hcl]⟩

/-- C4 witness: the concrete row `"-5"` is dropped and `"0"` is kept. -/
theorem negative_glucose_dropped_zero_kept_witness :
    cleanRow "2024-03-05T09:00:00" "-5" = none ∧
    (glucoseClean "0" = some 0 ∧
      ∀ t, parseDateTime "2024-03-05T09:00:00" = some t →
        cleanRow "2024-03-05T09:00:00" "0" = some ⟨t, 0⟩) :=
  ⟨(negative_glucose_dropped_zero_kept "2024-03-05T09:00:00" "-5" (-5)
        (by decide)).1 (by norm_num),
    (negative_glucose_dropped_zero_kept "2024-03-05T09:00:00" "0" 0
        (by decide)).2 rfl⟩

/-- C5: a row whose timestamp text fails to parse against the fixed format
(including the empty string) is absent from the Cleaner's output even when
its glucose parsed, and consequently every reading in the Cleaner's output
arises from an input row on which both the timestamp parse and the glucose
normalization succeeded (no null field survives). -/
theorem bad_timestamp_dropped (f : RawFrame) (out : List CleanReading)
    (hout : clean_data f = Except.ok out) :
    (∀ ts gl, parseDateTime ts = none → cleanRow ts gl = none) ∧
    ∀ cr ∈ out, ∃ row ∈ f.rows,
      parseDateTime (row.getD (f.header.indexOf timestamp_col) "") =
          some cr.timestamp ∧
      glucoseClean (row.getD (f.header.indexOf glucose_col) "") =
          some cr.glucose_mgdl := by
  constructor
  · intro ts gl hts
    cases hgl : glucoseClean gl <;> simp [cleanRow, hts, hgl]
  · intro cr hcr
    unfold clean_data at hout
    split at hout
    · obtain rfl : (f.rows.filterMap fun row =>
          cleanRow (row.getD (f.header.indexOf timestamp_col) "")
            (row.getD (f.header.indexOf glucose_col) "")) = out :=
        congrArg (fun x => match x with | Except.ok v => v | _ => []) hout
      obtain ⟨row, hrow, hclean⟩ := List.mem_filterMap.mp hcr
      refine ⟨row, hrow, ?_⟩
      revert hclean
      unfold cleanRow
      cases hts : parseDateTime (row.getD (f.header.indexOf timestamp_col) "") <;>
        cases hgl : glucoseClean (row.getD (f.header.indexOf glucose_col) "") <;>
          intro hclean <;> simp at hclean
      rw [← hclean]
      exact ⟨rfl, rfl⟩
    · cases hout

/-- C5 witness: a frame with one empty-timestamp row (dropped despite a
valid glucose) and one fully valid row. -/
theorem bad_timestamp_dropped_witness :
    (∀ ts gl, parseDateTime ts = none → cleanRow ts gl = none) ∧
    ∀ cr ∈ [(⟨⟨2024, 3, 5, 8, 15, 0⟩, 90⟩ : CleanReading)],
      ∃ row ∈ [["", "100"], ["2024-03-05T08:15:00", "90"]],
        parseDateTime (row.getD ((⟨[timestamp_col, glucose_col],
            [["", "100"], ["2024-03-05T08:15:00", "90"]]⟩ :
              RawFrame).header.indexOf timestamp_col) "") = some cr.timestamp ∧
        glucoseClean (row.getD ((⟨[timestamp_col, glucose_col],
            [["", "100"], ["2024-03-05T08:15:00", "90"]]⟩ :
              RawFrame).header.indexOf glucose_col) "") = some cr.glucose_mgdl :=
  bad_timestamp_dropped
    ⟨[timestamp_col, glucose_col], [["", "100"], ["2024-03-05T08:15:00", "90"]]⟩
    [⟨⟨2024, 3, 5, 8, 15, 0⟩, 90⟩] rfl

/-- C7: the Cleaner fails if and only if a designated column is absent
from the input schema, and when both columns are present it returns a
cleaned sequence without error — row-level malformed values never make it
fail. -/
theorem clean_fails_iff_missing_column (f : RawFrame) :
    (clean_data f = Except.error SchemaError.missingColumn ↔
      ¬(timestamp_col ∈ f.header ∧ glucose_col ∈ f.header)) ∧
    ((timestamp_col ∈ f.header ∧ glucose_col ∈ f.header) →
      ∃ out, clean_data f = Except.ok out) := by
  by_cases hc : timestamp_col ∈ f.header ∧ glucose_col ∈ f.header <;>
    simp [clean_data, hc]

/-- C8 counterexample: on the empty cleaned sequence the Hourly Aggregator
does not fail — it returns the empty stats sequence (polars `group_by` of
an empty frame yields an empty frame), so no `EmptyInputError` is
raised. -/
theorem aggregate_empty_counterexample : calculate_hourly_stats [] = [] := rfl

/-- C8 (amended): the Hourly Aggregator never fails; applied to an empty
cleaned sequence it returns the empty stats sequence, and its output is
empty exactly when its input is. -/
theorem aggregate_empty_returns_empty (rs : List CleanReading) :
    calculate_hourly_stats rs = [] ↔ rs = [] := by
  unfold calculate_hourly_stats
  rw [List.map_eq_nil_iff]
  unfold hoursPresent
  constructor
  · intro h
    have hp := (List.perm_insertionSort (· ≤ ·)
      ((rs.map fun r => r.timestamp.hour).dedup)).length_eq
    rw [h] at hp
    have hd : (rs.map fun r => r.timestamp.hour).dedup = [] :=
      List.length_eq_zero.mp hp.symm
    exact List.map_eq_nil_iff.mp ((List.dedup_eq_nil _).mp hd)
  · intro h
    subst h
    rfl

/-- C9 counterexample: on an empty stats sequence the Band Builder does
not return a recoverable `NoDataError` — the code has no such error path;
it panics on the `unwrap` of `reduce(f64::max)`, which the embedding
records as `none`. -/
theorem plot_empty_counterexample : plot_hourly_stats [] = none := rfl

/-- C9 (amended): applied to an empty stats sequence the Band Builder
fails by panicking (the `unwrap` of the p95 maximum, `none` in the
embedding) rather than with a recoverable `NoDataError`, and this panic
happens exactly on empty input. -/
theorem plot_panics_iff_empty (stats : List HourlyStat) :
    plot_hourly_stats stats = none ↔ stats = [] := by
  cases stats with
  | nil => simp [plot_hourly_stats, reduceMax]
  | cons s l => simp [plot_hourly_stats, reduceMax]

/-- C10: for every stats input with at least one row the maximum-of-p95
computation succeeds — the panic branch of the `unwrap` on
`reduce(f64::max)` is unreachable — and the band series and axis ceiling
are produced without error. -/
theorem plot_succeeds_on_nonempty (stats : List HourlyStat)
    (h : stats ≠ []) : ∃ b, plot_hourly_stats stats = some b := by
  obtain ⟨s, l, rfl⟩ := List.exists_cons_of_ne_nil h
  exact ⟨_, rfl⟩

/-- C10 witness at a one-row stats input. -/
theorem plot_succeeds_on_nonempty_witness :
    ∃ b, plot_hourly_stats [⟨8, 100, 80, 90, 150, 180⟩] = some b :=
  plot_succeeds_on_nonempty [⟨8, 100, 80, 90, 150, 180⟩] (by simp)

/-- C2: for every non-empty stats input the Band Builder takes `M`, the
maximum 95th-percentile value over all hours (`reduce(f64::max)` returns
the greatest member of the p95 column), and sets the y-axis ceiling to
`M + 50 − (M % 25)`. -/
theorem axis_ceiling_formula (stats : List HourlyStat) (M : ℚ)
    (h : reduceMax (stats.map fun s => s.p95) = some M) :
    (M ∈ stats.map (fun s => s.p95) ∧ ∀ x ∈ stats.map (fun s => s.p95), x ≤ M) ∧
    ∃ b, plot_hourly_stats stats = some b ∧
      b.y_axis_max = (M + 50) - rustRem M 25 := by
  refine ⟨reduceMax_spec h, ?_⟩
  cases stats with
  | nil => simp [reduceMax] at h
  | cons s l =>
    simp only [List.map_cons, reduceMax, Option.some.injEq] at h
    subst h
    exact ⟨_, rfl, rfl⟩

/-- C2 witness: `M = 180` yields the ceiling `225`, and `M = 200` (an
exact multiple of 25) yields `250`. -/
theorem axis_ceiling_formula_witness :
    (∃ b, plot_hourly_stats [⟨8, 100, 80, 90, 150, 180⟩] = some b ∧
      b.y_axis_max = 225) ∧
    ∃ b, plot_hourly_stats [⟨8, 100, 80, 90, 150, 200⟩] = some b ∧
      b.y_axis_max = 250 := by
  constructor
  · obtain ⟨-, b, hb, hy⟩ :=
      axis_ceiling_formula [⟨8, 100, 80, 90, 150, 180⟩] 180 rfl
    refine ⟨b, hb, ?_⟩
    rw [hy]
    norm_num [rustRem, ratTrunc]
  · obtain ⟨-, b, hb, hy⟩ :=
      axis_ceiling_formula [⟨8, 100, 80, 90, 150, 200⟩] 200 rfl
    refine ⟨b, hb, ?_⟩
    rw [hy]
    norm_num [rustRem, ratTrunc]

/-- C1: every quantile of every hour group in the Hourly Aggregator's
output is computed by nearest-rank selection — the sample whose rank is
nearest to `q·(n−1)` (`quantileNearest`) — and is therefore always equal
to some glucose value actually present in that group. -/
theorem quantiles_nearest_rank_members (rs : List CleanReading)
    (s : HourlyStat) (hs : s ∈ calculate_hourly_stats rs) :
    (s.p5 = quantileNearest (hourGroup rs s.hour) (5 / 100) ∧
      s.p25 = quantileNearest (hourGroup rs s.hour) (25 / 100) ∧
      s.p75 = quantileNearest (hourGroup rs s.hour) (75 / 100) ∧
      s.p95 = quantileNearest (hourGroup rs s.hour) (95 / 100)) ∧
    (∃ v ∈ hourGroup rs s.hour, s.p5 = (v : ℚ)) ∧
    (∃ v ∈ hourGroup rs s.hour, s.p25 = (v : ℚ)) ∧
    (∃ v ∈ hourGroup rs s.hour, s.p75 = (v : ℚ)) ∧
    (∃ v ∈ hourGroup rs s.hour, s.p95 = (v : ℚ)) := by
  have hne := (mem_calculate_hourly_stats hs).2
  obtain ⟨h, hh, rfl⟩ := List.mem_map.mp hs
  exact ⟨⟨rfl, rfl, rfl, rfl⟩,
    quantileNearest_mem hne (by norm_num),
    quantileNearest_mem hne (by norm_num),
    quantileNearest_mem hne (by norm_num),
    quantileNearest_mem hne (by norm_num)⟩

/-- C6: for non-empty cleaned input the Hourly Aggregator's rows are
strictly ascending by hour, each row is the statistics of the full group
of readings sharing its hour (pooling across calendar dates), and there is
exactly one row per hour value present in the input — none for an absent
hour. -/
theorem hourly_rows_sorted_one_per_hour (rs : List CleanReading)
    (_hne : rs ≠ []) :
    List.Pairwise (fun a b => a.hour < b.hour) (calculate_hourly_stats rs) ∧
    (∀ s ∈ calculate_hourly_stats rs,
      s = mkHourlyStat s.hour (hourGroup rs s.hour)) ∧
    ∀ h : Nat, (calculate_hourly_stats rs).countP (fun s => s.hour == h) =
      if h ∈ rs.map (fun r => r.timestamp.hour) then 1 else 0 := by
  refine ⟨?_, fun s hs => (mem_calculate_hourly_stats hs).1, ?_⟩
  · have hsorted : List.Sorted (· ≤ ·) (hoursPresent rs) :=
      List.sorted_insertionSort _ _
    have hnodup : (hoursPresent rs).Nodup :=
      (List.perm_insertionSort _ _).nodup_iff.mpr (List.nodup_dedup _)
    exact List.pairwise_map.mpr (hsorted.lt_of_le hnodup)
  · intro h
    unfold calculate_hourly_stats
    rw [List.countP_map]
    have hcp : ((fun s => s.hour == h) ∘
        fun hh => mkHourlyStat hh (hourGroup rs hh)) = fun hh => hh == h := rfl
    rw [hcp]
    have hcount : (hoursPresent rs).countP (fun hh => hh == h) =
        (hoursPresent rs).count h := rfl
    rw [hcount]
    unfold hoursPresent
    rw [(List.perm_insertionSort (· ≤ ·) _).count_eq]
    by_cases hmem : h ∈ rs.map fun r => r.timestamp.hour
    · rw [if_pos hmem]
      exact List.count_eq_one_of_mem (List.nodup_dedup _)
        (List.mem_dedup.mpr hmem)
    · rw [if_neg hmem]
      exact List.count_eq_zero_of_not_mem fun hc => hmem (List.mem_dedup.mp hc)



/-- C1 witness: the hour-0 group `[10, 20, 30, 40]` — its 25th percentile is `20`, a member of the group, never `17.5`. -/
theorem quantiles_nearest_rank_members_witness :
    ((⟨0, 25, 10, 20, 30, 40⟩ : HourlyStat) ∈ calculate_hourly_stats
      [⟨⟨2024, 3, 5, 0, 0, 0⟩, 10⟩, ⟨⟨2024, 3, 5, 0, 5, 0⟩, 20⟩,
        ⟨⟨2024, 3, 5, 0, 10, 0⟩, 30⟩, ⟨⟨2024, 3, 5, 0, 15, 0⟩, 40⟩]) ∧
    ((((⟨0, 25, 10, 20, 30, 40⟩ : HourlyStat)).p25 =
        quantileNearest (hourGroup
          [⟨⟨2024, 3, 5, 0, 0, 0⟩, 10⟩, ⟨⟨2024, 3, 5, 0, 5, 0⟩, 20⟩,
            ⟨⟨2024, 3, 5, 0, 10, 0⟩, 30⟩, ⟨⟨2024, 3, 5, 0, 15, 0⟩, 40⟩]
          (⟨0, 25, 10, 20, 30, 40⟩ : HourlyStat).hour) (25 / 100)) ∧
      ∃ v ∈ hourGroup
          [⟨⟨2024, 3, 5, 0, 0, 0⟩, 10⟩, ⟨⟨2024, 3, 5, 0, 5, 0⟩, 20⟩,
            ⟨⟨2024, 3, 5, 0, 10, 0⟩, 30⟩, ⟨⟨2024, 3, 5, 0, 15, 0⟩, 40⟩]
          (⟨0, 25, 10, 20, 30, 40⟩ : HourlyStat).hour,
        (⟨0, 25, 10, 20, 30, 40⟩ : HourlyStat).p25 = (v : ℚ)) := by
  have hmem : (⟨0, 25, 10, 20, 30, 40⟩ : HourlyStat) ∈ calculate_hourly_stats
      [⟨⟨2024, 3, 5, 0, 0, 0⟩, 10⟩, ⟨⟨2024, 3, 5, 0, 5, 0⟩, 20⟩,
        ⟨⟨2024, 3, 5, 0, 10, 0⟩, 30⟩, ⟨⟨2024, 3, 5, 0, 15, 0⟩, 40⟩] := by
    simp [calculate_hourly_stats, hoursPresent, hourGroup, mkHourlyStat, meanQ,
      quantileNearest, List.insertionSort, List.orderedInsert, List.dedup,
      List.pwFilter]
    norm_num [round_eq]
    simp
  have hthm := quantiles_nearest_rank_members _ _ hmem
  exact ⟨hmem, hthm.1.2.1, hthm.2.2.1⟩

/-- C6 witness: two readings at hour 8 on different calendar dates land in one row. -/
theorem hourly_rows_sorted_one_per_hour_witness :
    ([(⟨⟨2024, 3, 5, 8, 15, 0⟩, 30⟩ : CleanReading),
        ⟨⟨2024, 3, 6, 8, 20, 0⟩, 90⟩] ≠ []) ∧
    (List.Pairwise (fun a b => a.hour < b.hour) (calculate_hourly_stats
      [⟨⟨2024, 3, 5, 8, 15, 0⟩, 30⟩, ⟨⟨2024, 3, 6, 8, 20, 0⟩, 90⟩]) ∧
    (∀ s ∈ calculate_hourly_stats
        [⟨⟨2024, 3, 5, 8, 15, 0⟩, 30⟩, ⟨⟨2024, 3, 6, 8, 20, 0⟩, 90⟩],
      s = mkHourlyStat s.hour (hourGroup
        [⟨⟨2024, 3, 5, 8, 15, 0⟩, 30⟩, ⟨⟨2024, 3, 6, 8, 20, 0⟩, 90⟩] s.hour)) ∧
    ∀ h : Nat, List.countP (fun s => s.hour == h) (calculate_hourly_stats
        [⟨⟨2024, 3, 5, 8, 15, 0⟩, 30⟩, ⟨⟨2024, 3, 6, 8, 20, 0⟩, 90⟩]) =
      if h ∈ List.map (fun r => r.timestamp.hour)
          [(⟨⟨2024, 3, 5, 8, 15, 0⟩, 30⟩ : CleanReading),
            ⟨⟨2024, 3, 6, 8, 20, 0⟩, 90⟩] then 1 else 0) :=
  ⟨by simp, hourly_rows_sorted_one_per_hour _ (by simp)⟩

end GlucosePipeline
